import Mathlib

/-!
Verification of japa's SlimRunner module (`src/unnamed/part_000`) and the
jUnitList reporter (`src/src/Reporter/jUnitList.ts`), as a shallow embedding.

The SlimRunner module keeps module-level mutable state (`groups`,
`activeGroup`, `runnerOptions`, `reporterFn`, `beforeHooks`, `afterHooks`,
the `loader`).  We model that state as an explicit record `SlimState` and
each exported function as a state transformer.  JavaScript truthiness of
the option values is modelled explicitly where the source branches on it.

The `Runner`, `Group` and `Test` classes are repository code that is not
part of the given sources; where a claim depends on their behaviour the
corresponding definition is modelled from the spec and marked as such in
its doc comment.
-/

namespace Japa

/-- A JavaScript `RegExp` object, identified by its source pattern.
`new RegExp(s)` is `JSRegExp.mk s`.  The matching engine itself is external
(the JS runtime); where a filter decision for a compiled pattern is needed it
is abstracted as a parameter. -/
structure JSRegExp where
  source : String
deriving DecidableEq, Repr

/-- The `grep` configuration value as received by `test.configure`:
either a raw string or a pre-built `RegExp` (TS type `string | RegExp`). -/
inductive GrepVal where
  | str (s : String)
  | re (r : JSRegExp)
deriving DecidableEq, Repr

/-- JavaScript truthiness of a `grep` value: an empty string is falsy,
every other string is truthy, and an object (a `RegExp`) is always truthy.
Mirrors the `if (options.grep)` test on line 279 of the source. -/
def GrepVal.truthy : GrepVal → Bool
  | .str s => s ≠ ""
  | .re _ => true

/-- `options.grep instanceof RegExp ? options.grep : new RegExp(options.grep)`
(line 280 of the source).  The `RegExp` constructor is the JS runtime's: it
returns a compiled pattern or throws a `SyntaxError` for an invalid pattern
string, so it is abstracted as the fallible parameter `newRegExp`.  A
pre-built pattern object is passed through unchanged. -/
def normalizeGrep (newRegExp : String → Except String JSRegExp) :
    GrepVal → Except String JSRegExp
  | .str s => newRegExp s
  | .re r => .ok r

/-- One concrete behaviour of the external ECMAScript `RegExp` constructor,
pinned only on the probe inputs used below: every conforming engine throws
`SyntaxError: Invalid regular expression: ... Unterminated group` for the
pattern `(`, and compiles the plain literal patterns used in the witnesses.
This instance is a test fixture for counterexamples and witnesses; the
theorems quantify over the engine. -/
def probeRegExpCtor : String → Except String JSRegExp := fun s =>
  if s = "(" then
    .error "SyntaxError: Invalid regular expression: Unterminated group"
  else
    .ok (JSRegExp.mk s)

/-- `IOptions`: the module-level `runnerOptions` record of the SlimRunner
(`bail`, `timeout`, plus the optional normalized `grep` set by configure). -/
structure IOptions where
  bail : Bool
  timeout : Nat
  grep : Option JSRegExp
deriving DecidableEq, Repr

/-- The state held by the `Loader` instance: the files glob passed to
`loader.files(...)` and whether a filter function was installed. -/
structure LoaderState where
  filesGlob : Option (List String)
  filterSet : Bool
deriving DecidableEq, Repr

/-- A test declared on a group.  Option flags mirror `ITestOptions`
(`skip`, `skipInCI`, `runInCI`, `regression`), as passed by the
`test.skip` / `test.skipInCI` / `test.runInCI` / `test.failing` wrappers. -/
structure TestDecl where
  title : String
  skip : Bool := false
  skipInCI : Bool := false
  runInCI : Bool := false
  regression : Bool := false
deriving DecidableEq, Repr

/-- The kind of a lifecycle hook: before-all, after-all, before-each or
after-each. -/
inductive HookKind where
  | beforeAll
  | afterAll
  | beforeEach
  | afterEach
deriving DecidableEq, Repr

/-- Modelled from the spec: a group's "four optional Hooks" with "at most
one hook of each kind per Group".  Hook callbacks are user-supplied opaque
functions, tracked by abstract identifiers; a fresh group has all four
slots empty. -/
structure GroupHooks where
  before : Option Nat := none
  after : Option Nat := none
  beforeEach : Option Nat := none
  afterEach : Option Nat := none
deriving DecidableEq, Repr

/-- Modelled from the spec: setting a hook slot of the given kind (the
group-instance methods the declaration callback receives).  Slots may be
reassigned before execution starts, so a set overwrites. -/
def setHook (h : GroupHooks) : HookKind → Nat → GroupHooks
  | .beforeAll, id => { h with before := some id }
  | .afterAll, id => { h with after := some id }
  | .beforeEach, id => { h with beforeEach := some id }
  | .afterEach, id => { h with afterEach := some id }

/-- Modelled from the spec: the `Group` class is not among the given source
files; per the spec a group holds a title, its ordered tests, its own four
optional hook slots, and a configuration snapshot "(bail, timeout, grep) —
copied at creation time from the global configuration, not live-linked".
The SlimRunner constructs it as
`new Group(title, testArgsFn, hookArgsFn, runnerOptions)`. -/
structure GroupModel where
  title : String
  tests : List TestDecl
  options : IOptions
  hooks : GroupHooks
deriving DecidableEq, Repr

/-- The module-level mutable state of the SlimRunner module.  Hooks and the
reporter function are user-supplied opaque callbacks; we track them by
abstract identifiers. -/
structure SlimState where
  groups : List GroupModel
  activeGroup : Option Nat
  runnerOptions : IOptions
  reporterFn : Nat
  beforeHooks : List Nat
  afterHooks : List Nat
  loader : LoaderState
deriving DecidableEq, Repr

/-- The initial module state: no groups, no active group,
`runnerOptions = { bail: false, timeout: 2000 }`, the default list reporter,
no before/after hooks, a fresh loader. -/
def initSlimState : SlimState where
  groups := []
  activeGroup := none
  runnerOptions := { bail := false, timeout := 2000, grep := none }
  reporterFn := 0
  beforeHooks := []
  afterHooks := []
  loader := { filesGlob := none, filterSet := false }

/-- `IConfigureOptions` as received by `test.configure` (all fields
optional; `none` is JavaScript `undefined`).  Reporter, filter and hook
callbacks are tracked by abstract identifiers. -/
structure IConfigureOptions where
  reporterFn : Option Nat := none
  bail : Option Bool := none
  timeout : Option Nat := none
  files : Option (List String) := none
  filter : Option Nat := none
  before : Option (List Nat) := none
  after : Option (List Nat) := none
  grep : Option GrepVal := none
deriving DecidableEq, Repr

/-- `test.configure(options)` (lines 220-282 of the source).  The result is
the module state after the call together with the thrown error, if any
(`none` means the call returned normally).  The guard throws when any group
already exists, before any assignment; otherwise each provided option is
applied in source order.  All guards mirror the source's checks:
`!== undefined` for `bail` and `files`, `typeof === 'number'` for
`timeout`, `typeof === 'function'` for `filter`, truthiness for
`reporterFn`, `before`, `after` and `grep` (on the typed inputs, a present
reporter id, hook array or files value is always truthy; an empty grep
string is falsy).  The grep branch is last: when `new RegExp` throws there,
the thrown error escapes `configure` while the assignments already made
persist in the module state. -/
def configure (newRegExp : String → Except String JSRegExp)
    (o : IConfigureOptions) (s : SlimState) : SlimState × Option String :=
  if s.groups ≠ [] then
    (s, some "test.configure must be called before creating any tests")
  else
    let s := match o.reporterFn with
      | some r => { s with reporterFn := r }
      | none => s
    let s := match o.bail with
      | some b => { s with runnerOptions := { s.runnerOptions with bail := b } }
      | none => s
    let s := match o.timeout with
      | some t => { s with runnerOptions := { s.runnerOptions with timeout := t } }
      | none => s
    let s := match o.files with
      | some fs => { s with loader := { s.loader with filesGlob := some fs } }
      | none => s
    let s := match o.filter with
      | some _ => { s with loader := { s.loader with filterSet := true } }
      | none => s
    let s := match o.before with
      | some hs => { s with beforeHooks := hs }
      | none => s
    let s := match o.after with
      | some hs => { s with afterHooks := hs }
      | none => s
    match o.grep with
    | some g =>
      if g.truthy then
        match normalizeGrep newRegExp g with
        | .ok r => ({ s with runnerOptions := { s.runnerOptions with grep := some r } }, none)
        | .error e => (s, some e)
      else (s, none)
    | none => (s, none)

/-- Modelled from the spec: the grep filter decision made during `Test`
execution (the `Test` class is not among the given sources).  Per the spec,
grep defaults to "match everything"; a compiled pattern defers to the JS
regex engine, abstracted here as the parameter `regexTest`. -/
def grepFilterMatches (regexTest : JSRegExp → String → Bool)
    (g : Option JSRegExp) (title : String) : Bool :=
  match g with
  | none => true
  | some r => regexTest r title

/-- Replace the element at index `i` (no-op when out of range); used to model
adding a test to the group object referenced by `activeGroup`. -/
def modifyAt (l : List GroupModel) (i : Nat) (f : GroupModel → GroupModel) :
    List GroupModel :=
  match l, i with
  | [], _ => []
  | x :: xs, 0 => f x :: xs
  | x :: xs, n + 1 => x :: modifyAt xs n f

/-- `addTest(title, callback, options)` (lines 103-110 of the source): when
no group is active, a fresh `Group('root', ..., runnerOptions)` is created
and pushed; then the test is added to the active group.  The active group is
represented by its index into `groups` (the JS code holds an object
reference to the pushed group). -/
def addTestS (s : SlimState) (t : TestDecl) : SlimState :=
  match s.activeGroup with
  | none =>
    { s with
        groups := s.groups ++ [⟨"root", [t], s.runnerOptions, {}⟩]
        activeGroup := some s.groups.length }
  | some i =>
    { s with groups := modifyAt s.groups i (fun g => { g with tests := g.tests ++ [t] }) }

/-- A declaration-time action on the SlimRunner module: declaring a test
(`test(title, cb)` and its flag variants), setting a hook slot on the group
instance the enclosing `test.group` callback received, or declaring a group
(`test.group(title, callback)`, whose callback body is itself a sequence of
declarations executed synchronously). -/
inductive Decl where
  | dtest (t : TestDecl)
  | dhook (k : HookKind) (id : Nat)
  | dgroup (title : String) (body : List Decl)
deriving Repr

mutual

/-- Executes one declaration against the module state.  `cb` is the index
of the group object the enclosing `test.group` callback received (`none` at
top level, where the declaration API exposes no group object, so a
top-level `dhook` has nothing to attach to).  `dhook` calls a hook method
on that group object directly — not on `activeGroup`.  `dgroup` mirrors
`test.group` (lines 171-185 of the source): push a new group built from the
current `runnerOptions`, make it active, run the callback body
synchronously with the new group as its callback argument, then reset
`activeGroup` to `null`. -/
def runDecl (cb : Option Nat) (s : SlimState) : Decl → SlimState
  | .dtest t => addTestS s t
  | .dhook k id =>
    match cb with
    | some i =>
      { s with groups := modifyAt s.groups i (fun g => { g with hooks := setHook g.hooks k id }) }
    | none => s
  | .dgroup title body =>
    let s1 := { s with
      groups := s.groups ++ [⟨title, [], s.runnerOptions, {}⟩]
      activeGroup := some s.groups.length }
    { runDeclList (some s.groups.length) s1 body with activeGroup := none }

/-- Executes a sequence of declarations in order, under the same callback
group. -/
def runDeclList (cb : Option Nat) (s : SlimState) : List Decl → SlimState
  | [] => s
  | d :: rest => runDeclList cb (runDecl cb s d) rest

end

/-- Whether a declaration is a nested `test.group` call. -/
def Decl.isGroup : Decl → Bool
  | .dgroup _ _ => true
  | _ => false

/-- The tests a flat callback body declares, in order. -/
def bodyTests : List Decl → List TestDecl
  | [] => []
  | .dtest t :: rest => t :: bodyTests rest
  | _ :: rest => bodyTests rest

/-- The hook slots a flat callback body leaves on its group, starting from
the slots `h`. -/
def bodyHooks (h : GroupHooks) : List Decl → GroupHooks
  | [] => h
  | .dhook k id :: rest => bodyHooks (setHook h k id) rest
  | _ :: rest => bodyHooks h rest

/-- Direct mutation of the module-level `runnerOptions` binding (the source
mutates it in place inside `configure`); used to state snapshot immunity of
already-created groups. -/
def setRunnerOptions (s : SlimState) (o : IOptions) : SlimState :=
  { s with runnerOptions := o }

/-! ## The `run()` function (lines 122-165 of the source)

`run` builds a `Runner` over the declared groups, awaits the configured
before hooks, loads suite files from disk, guards against mixing the
declaration API with file loading, requires each loaded file, awaits
`runner.run()` in a try/catch, awaits the configured after hooks, and exits
the process.  Disk contents (`loader.loadFiles()`) and the `Runner`'s
behaviour (its class is not among the given sources) are inputs to the
model; the observable behaviour is the ordered trace of effects plus the
process exit code. -/

/-- Modelled from the spec: the outcome of awaiting `runner.run()` — either
it resolves, or it rejects and the rejection is caught as the hard
exception; in both cases the runner's cumulative `hasErrors` flag is
readable afterwards ("`hasErrors` is readable after `run()` returns and is
the authoritative pass/fail signal"). -/
inductive RunnerOutcome where
  | completed (hasErrors : Bool)
  | threw (hasErrors : Bool)
deriving DecidableEq, Repr

/-- The runner's `hasErrors` flag after `runner.run()` settles. -/
def RunnerOutcome.errFlag : RunnerOutcome → Bool
  | .completed e => e
  | .threw e => e

/-- Whether `runner.run()` rejected (so the catch block stored a hard
exception). -/
def RunnerOutcome.isThrow : RunnerOutcome → Bool
  | .completed _ => false
  | .threw _ => true

/-- An observable effect of `run()`, in execution order. -/
inductive RunEvent where
  | beforeHook (id : Nat)
  | configError
  | requireFile (f : String)
  | runnerRun
  | afterHook (id : Nat)
  | exitEv (code : Nat)
deriving DecidableEq, Repr

/-- `run(exitProcess)`: the trace of effects and the process exit code
(`none` when the process is not exited).  `loaderFiles` is the result of
`loader.loadFiles()`; `outcome` is the behaviour of `runner.run()`.  The
guard `loaderFiles.length && groups.length` (line 135) exits with code 1
before any file is required and before `runner.run()` is called.  Otherwise
the exit condition (line 160) is
`runner.hasErrors || hardException ? exit(1) : exit(0)`; a caught rejection
is stored in `hardException` (JS `Error` objects are truthy). -/
def runModel (s : SlimState) (loaderFiles : List String)
    (outcome : RunnerOutcome) (exitProcess : Bool) :
    List RunEvent × Option Nat :=
  let pre := s.beforeHooks.map RunEvent.beforeHook
  if loaderFiles ≠ [] ∧ s.groups ≠ [] then
    (pre ++ [.configError, .exitEv 1], some 1)
  else
    let reqs := loaderFiles.map RunEvent.requireFile
    let post := s.afterHooks.map RunEvent.afterHook
    if exitProcess then
      let code := if outcome.errFlag || outcome.isThrow then 1 else 0
      (pre ++ reqs ++ [.runnerRun] ++ post ++ [.exitEv code], some code)
    else
      (pre ++ reqs ++ [.runnerRun] ++ post, none)

/-! ## The jUnitList reporter (`src/src/Reporter/jUnitList.ts`)

The `Min` class plus the module-level counters `count`, `failCount`,
`testSuiteDuration`, `testSuitesDuration`.  Console output and the XML file
append are modelled as an ordered list of output effects. -/

/-- A `testcase` entry pushed onto `this.testSuite` by `onTestEnd`. -/
structure TestCaseXml where
  classname : String
  name : String
  time : Nat
deriving DecidableEq, Repr

/-- A `testsuite` entry pushed onto `this.testSuites` by `onGroupEnd`. -/
structure SuiteXml where
  failures : Nat
  name : String
  package : String
  test : Nat
  time : Nat
  testcase : List TestCaseXml
deriving DecidableEq, Repr

/-- `this.finalStats` of the reporter. -/
structure FinalStats where
  total : Nat
  passed : Nat
  failed : Nat
  skipped : Nat
  regression : Nat
  todo : Nat
deriving DecidableEq, Repr

/-- The reporter instance state plus the module-level counters. -/
structure MinState where
  testsStatuses : List String
  activeGroup : Option String
  start : Option Int
  testSuite : List TestCaseXml
  testSuites : List SuiteXml
  finalStats : FinalStats
  count : Nat
  failCount : Nat
  testSuiteDuration : Nat
  testSuitesDuration : Nat
deriving DecidableEq, Repr

/-- The reporter state right after construction. -/
def initMinState : MinState where
  testsStatuses := ["passed", "failed", "skipped", "todo"]
  activeGroup := none
  start := none
  testSuite := []
  testSuites := []
  finalStats := { total := 0, passed := 0, failed := 0, skipped := 0, regression := 0, todo := 0 }
  count := 0
  failCount := 0
  testSuiteDuration := 0
  testSuitesDuration := 0

/-- The payload of a `test:end` event as destructured by `onTestEnd`.
The error is carried as an optional message (`null` is `none`). -/
structure TestEndEvent where
  error : Option String
  status : String
  title : String
  duration : Nat
  regression : Bool
  regressionMessage : Option String
deriving DecidableEq, Repr

/-- An output effect of the reporter: a console line or the XML append. -/
inductive ROut where
  | testLine (padded : Bool) (status : String) (title : String) (duration : Nat)
  | regressionMsg (m : String)
  | blank
  | groupTitle (t : String)
  | zeroTests
  | errorsHeader
  | errorEntry (index : Nat) (title : String)
  | verdict (passed : Bool)
  | statsReport (stats : FinalStats) (timeMs : Int)
  | xmlAppend (totalDuration : Nat) (suites : List SuiteXml)
deriving DecidableEq, Repr

/-- `Array.prototype.indexOf`: the index of the first occurrence, `-1` when
absent. -/
def jsIndexOf (l : List String) (s : String) : Int :=
  match l with
  | [] => -1
  | x :: xs =>
    if x = s then 0
    else
      let r := jsIndexOf xs s
      if r < 0 then -1 else r + 1

/-- `this.finalStats[status]++` for a status key. -/
def bumpStat (fs : FinalStats) (status : String) : FinalStats :=
  if status = "passed" then { fs with passed := fs.passed + 1 }
  else if status = "failed" then { fs with failed := fs.failed + 1 }
  else if status = "skipped" then { fs with skipped := fs.skipped + 1 }
  else if status = "todo" then { fs with todo := fs.todo + 1 }
  else fs

/-- `onTestEnd` (lines 177-215 of the source): returns immediately when
`this.testsStatuses.indexOf(status) <= -1`; otherwise bumps the per-status
and total counters (and `regression` when flagged), logs the test line (and
the regression message when truthy — an empty string is falsy), bumps
`failCount` when `error != null`, accumulates `testSuiteDuration`, pushes a
`testcase` record and bumps `count`. -/
def onTestEnd (st : MinState) (ev : TestEndEvent) : MinState × List ROut :=
  if jsIndexOf st.testsStatuses ev.status ≤ -1 then
    (st, [])
  else
    let fs := bumpStat st.finalStats ev.status
    let fs := { fs with total := fs.total + 1 }
    let fs := if ev.regression then { fs with regression := fs.regression + 1 } else fs
    let outs := [ROut.testLine st.activeGroup.isSome ev.status ev.title ev.duration]
    let outs := outs ++
      (match ev.regressionMessage with
       | some m => if m ≠ "" then [ROut.regressionMsg m] else []
       | none => [])
    let fc := if ev.error.isSome then st.failCount + 1 else st.failCount
    ({ st with
        finalStats := fs
        failCount := fc
        testSuiteDuration := st.testSuiteDuration + ev.duration
        count := st.count + 1
        testSuite := st.testSuite ++ [⟨"", ev.title, ev.duration⟩] },
     outs)

/-- `onGroupStart` (lines 223-231): records the active group title, prints a
blank line and the title, and resets `this.testSuite`. -/
def onGroupStart (st : MinState) (title : String) : MinState × List ROut :=
  ({ st with activeGroup := some title, testSuite := [] },
   [ROut.blank, ROut.groupTitle title])

/-- `onGroupEnd` (lines 237-255): clears the active group, pushes the
accumulated `testsuite` record, adds the suite duration to the total and
resets the module-level counters. -/
def onGroupEnd (st : MinState) : MinState × List ROut :=
  ({ st with
      activeGroup := none
      testSuites := st.testSuites ++
        [⟨st.failCount, "", "", st.count, st.testSuiteDuration, st.testSuite⟩]
      testSuitesDuration := st.testSuitesDuration + st.testSuiteDuration
      count := 0
      failCount := 0
      testSuiteDuration := 0 },
   [])

/-- `onTestsStart` (lines 344-347): `this.start = new Date().getDate()` —
the day of month at the start, not a timestamp. -/
def onTestsStart (st : MinState) (dayOfMonth : Int) : MinState :=
  { st with start := some dayOfMonth }

/-- The errors argument of the `end` event as consumed by `printStack`:
absent (falsy), an array, or a single error object.  Only the title of each
entry matters to the modelled output. -/
inductive EndErrors where
  | noErrors
  | arr (titles : List String)
  | single (title : String)
deriving DecidableEq, Repr

/-- `printStack` (lines 282-297): nothing when errors are falsy; otherwise a
blank line, the ERRORS header, a blank line, then one entry per error
(`printError` prints `index + 1`; a single non-array error is printed with
index 5, so the label `6.`). -/
def printStack : EndErrors → List ROut
  | .noErrors => []
  | .arr titles =>
    [ROut.blank, ROut.errorsHeader, ROut.blank] ++
      (titles.enum.map fun p => ROut.errorEntry (p.1 + 1) p.2)
  | .single t =>
    [ROut.blank, ROut.errorsHeader, ROut.blank, ROut.errorEntry 6 t]

/-- `onTestsEnd` (lines 307-338): computes
`end = new Date().getDate() - this.start` (a difference of day-of-month
values; JS coerces a never-set `null` start to 0), prints a blank line,
short-circuits with `0 TESTS RAN` when no test was counted, otherwise
prints the error stack, the verdict banner and the final report
(`generateReport(end)` renders the stats and `ms(end)` and appends the
accumulated XML to `result.xml`). -/
def onTestsEnd (st : MinState) (dayOfMonth : Int) (status : String)
    (errors : EndErrors) : MinState × List ROut :=
  let startVal : Int := match st.start with
    | some d => d
    | none => 0
  let endVal : Int := dayOfMonth - startVal
  if st.finalStats.total = 0 then
    (st, [ROut.blank, ROut.zeroTests])
  else
    (st,
     [ROut.blank] ++ printStack errors ++
       [ROut.verdict (status = "passed"), ROut.blank,
        ROut.statsReport st.finalStats endVal,
        ROut.xmlAppend st.testSuitesDuration st.testSuites])

/-! ## Supporting lemmas -/

/-- On a status absent from the list, `indexOf` yields `-1`. -/
theorem jsIndexOf_of_not_mem (l : List String) (s : String) (h : s ∉ l) :
    jsIndexOf l s = -1 := by
  induction l with
  | nil => rfl
  | cons x xs ih =>
    have hxs : x ≠ s := fun hx => h (hx ▸ List.mem_cons_self x xs)
    have hs : s ∉ xs := fun hm => h (List.mem_cons_of_mem x hm)
    simp [jsIndexOf, hxs, ih hs]

/-- Pointwise-equal modifications act identically. -/
theorem modifyAt_congr (l : List GroupModel) (i : Nat)
    (f g : GroupModel → GroupModel) (h : ∀ x, f x = g x) :
    modifyAt l i f = modifyAt l i g := by
  induction l generalizing i with
  | nil => rfl
  | cons x xs ih =>
    cases i with
    | zero => simp [modifyAt, h x]
    | succ n => simp [modifyAt, ih n]

/-- Modifying with the identity is a no-op. -/
theorem modifyAt_id (l : List GroupModel) (i : Nat) :
    modifyAt l i (fun x => x) = l := by
  induction l generalizing i with
  | nil => rfl
  | cons x xs ih =>
    cases i with
    | zero => rfl
    | succ n => simp [modifyAt, ih n]

/-- Two modifications at the same index compose. -/
theorem modifyAt_modifyAt (l : List GroupModel) (i : Nat)
    (f g : GroupModel → GroupModel) :
    modifyAt (modifyAt l i f) i g = modifyAt l i (fun x => g (f x)) := by
  induction l generalizing i with
  | nil => rfl
  | cons x xs ih =>
    cases i with
    | zero => rfl
    | succ n => simp [modifyAt, ih n]

/-- Modifying the freshly appended last element. -/
theorem modifyAt_append_length (l : List GroupModel) (x : GroupModel)
    (f : GroupModel → GroupModel) :
    modifyAt (l ++ [x]) l.length f = l ++ [f x] := by
  induction l with
  | nil => rfl
  | cons y ys ih => simp [modifyAt, ih]

/-- Running a sequence of bare test declarations while a group is active
appends all of them, in order, to that group's test list and touches
nothing else (whatever group object the enclosing callback, if any,
received). -/
theorem runDeclList_dtests (ts : List TestDecl) (cb : Option Nat)
    (s : SlimState) (i : Nat) (h : s.activeGroup = some i) :
    runDeclList cb s (ts.map Decl.dtest) =
      { s with groups := modifyAt s.groups i (fun g => { g with tests := g.tests ++ ts }) } := by
  induction ts generalizing s with
  | nil =>
    have hf : (fun g : GroupModel => { g with tests := g.tests ++ ([] : List TestDecl) })
        = fun g => g := by
      funext g
      simp
    simp only [List.map_nil, runDeclList, hf, modifyAt_id]
  | cons t ts ih =>
    have hstep : runDeclList cb s (Decl.dtest t :: ts.map Decl.dtest) =
        runDeclList cb (addTestS s t) (ts.map Decl.dtest) := by
      simp [runDeclList, runDecl]
    have haddt : addTestS s t =
        { s with groups := modifyAt s.groups i (fun g => { g with tests := g.tests ++ [t] }) } := by
      simp [addTestS, h]
    have hact : (addTestS s t).activeGroup = some i := by
      rw [haddt]
      exact h
    rw [List.map_cons, hstep, ih (addTestS s t) hact, haddt]
    simp only [modifyAt_modifyAt]
    congr 1
    apply modifyAt_congr
    intro x
    simp

/-- Running a flat callback body (tests and hook settings, no nested group)
with the active group and the callback's group object both at index `i`
appends the body's tests to that group and applies its hook settings to
that group's slots, touching nothing else. -/
theorem runDeclList_flat (body : List Decl) (s : SlimState) (i : Nat)
    (hflat : ∀ d ∈ body, d.isGroup = false) (h : s.activeGroup = some i) :
    runDeclList (some i) s body =
      { s with
          groups := modifyAt s.groups i (fun g => { g with
            tests := g.tests ++ bodyTests body
            hooks := bodyHooks g.hooks body }) } := by
  induction body generalizing s with
  | nil =>
    have hf : (fun g : GroupModel =>
        { g with tests := g.tests ++ bodyTests [], hooks := bodyHooks g.hooks [] })
        = fun g => g := by
      funext g
      simp [bodyTests, bodyHooks]
    simp only [runDeclList, hf, modifyAt_id]
  | cons d body ih =>
    have hbody : ∀ x ∈ body, x.isGroup = false :=
      fun x hx => hflat x (List.mem_cons_of_mem d hx)
    cases d with
    | dtest t =>
      have hstep : runDeclList (some i) s (Decl.dtest t :: body) =
          runDeclList (some i) (addTestS s t) body := by
        simp [runDeclList, runDecl]
      have haddt : addTestS s t =
          { s with groups := modifyAt s.groups i (fun g => { g with tests := g.tests ++ [t] }) } := by
        simp [addTestS, h]
      have hact : (addTestS s t).activeGroup = some i := by
        rw [haddt]
        exact h
      rw [hstep, ih (addTestS s t) hbody hact, haddt]
      simp only [modifyAt_modifyAt]
      congr 1
      apply modifyAt_congr
      intro x
      simp [bodyTests, bodyHooks]
    | dhook k id =>
      have hstep : runDeclList (some i) s (Decl.dhook k id :: body) =
          runDeclList (some i)
            { s with groups := modifyAt s.groups i (fun g => { g with hooks := setHook g.hooks k id }) }
            body := by
        simp [runDeclList, runDecl]
      have hact : ({ s with groups := modifyAt s.groups i (fun g => { g with hooks := setHook g.hooks k id }) } : SlimState).activeGroup = some i := h
      rw [hstep, ih _ hbody hact]
      simp only [modifyAt_modifyAt]
      congr 1
    | dgroup t b =>
      have : Decl.isGroup (Decl.dgroup t b) = false :=
        hflat (Decl.dgroup t b) (List.mem_cons_self _ _)
      simp [Decl.isGroup] at this

/-! ## Claims C4, C5 and C7 (declaration model) -/

/-- Counterexample to C4 as stated: declaring a test, then an (empty)
explicit group, then another test yields two distinct groups titled
"root" — after `test.group` returns it resets `activeGroup` to null, so the
next bare test declaration creates a fresh root group rather than reusing
the earlier one.  The outside tests t1 and t2 are split across the two
root groups. -/
theorem root_group_not_unique :
    ((runDeclList none initSlimState
        [Decl.dtest ⟨"t1", false, false, false, false⟩,
         Decl.dgroup "g" [],
         Decl.dtest ⟨"t2", false, false, false, false⟩]).groups.map GroupModel.title)
      = ["root", "g", "root"]
    ∧ ¬ ((runDeclList none initSlimState
        [Decl.dtest ⟨"t1", false, false, false, false⟩,
         Decl.dgroup "g" [],
         Decl.dtest ⟨"t2", false, false, false, false⟩]).groups.countP
          (fun g => g.title == "root") ≤ 1) := by
  have hrun : (runDeclList none initSlimState
      [Decl.dtest ⟨"t1", false, false, false, false⟩,
       Decl.dgroup "g" [],
       Decl.dtest ⟨"t2", false, false, false, false⟩]).groups =
      [⟨"root", [⟨"t1", false, false, false, false⟩], initSlimState.runnerOptions, {}⟩,
       ⟨"g", [], initSlimState.runnerOptions, {}⟩,
       ⟨"root", [⟨"t2", false, false, false, false⟩], initSlimState.runnerOptions, {}⟩] := by
    simp [runDeclList, runDecl, addTestS, initSlimState, modifyAt]
  rw [hrun]
  constructor
  · rfl
  · decide

/-- Claim C4 (corrected): restricted to declaration sequences with no
explicit group declaration, all tests are collected into a single implicit
group titled "root", in declaration order; exactly one group titled "root"
exists then.  (In general each explicit group declaration resets the
active group, so a later outside test starts a fresh "root" group.) -/
theorem root_group_collects (ts : List TestDecl) (h : ts ≠ []) :
    (runDeclList none initSlimState (ts.map Decl.dtest)).groups
      = [⟨"root", ts, initSlimState.runnerOptions, {}⟩]
    ∧ (runDeclList none initSlimState (ts.map Decl.dtest)).groups.countP
        (fun g => g.title == "root") = 1 := by
  obtain ⟨t, ts, rfl⟩ : ∃ t rest, ts = t :: rest := by
    cases ts with
    | nil => exact absurd rfl h
    | cons t rest => exact ⟨t, rest, rfl⟩
  have hstep : runDeclList none initSlimState (Decl.dtest t :: ts.map Decl.dtest) =
      runDeclList none (addTestS initSlimState t) (ts.map Decl.dtest) := by
    simp [runDeclList, runDecl]
  have haddt : addTestS initSlimState t =
      { initSlimState with
          groups := [⟨"root", [t], initSlimState.runnerOptions, {}⟩]
          activeGroup := some 0 } := by
    simp [addTestS, initSlimState]
  have hgroups : (runDeclList none initSlimState (Decl.dtest t :: ts.map Decl.dtest)).groups
      = [⟨"root", t :: ts, initSlimState.runnerOptions, {}⟩] := by
    rw [hstep, runDeclList_dtests ts none (addTestS initSlimState t) 0 (by rw [haddt]), haddt]
    simp [modifyAt]
  rw [List.map_cons, hgroups]
  exact ⟨rfl, by simp [List.countP_cons]⟩

/-- Concrete instance of the amended C4: two bare test declarations end up
in one root group. -/
theorem root_group_collects_witness :
    ([⟨"a", false, false, false, false⟩, ⟨"b", false, false, false, false⟩] : List TestDecl) ≠ [] ∧
    (runDeclList none initSlimState
        (([⟨"a", false, false, false, false⟩, ⟨"b", false, false, false, false⟩] : List TestDecl).map Decl.dtest)).groups
      = [⟨"root", [⟨"a", false, false, false, false⟩, ⟨"b", false, false, false, false⟩], initSlimState.runnerOptions, {}⟩] :=
  ⟨by decide,
   (root_group_collects
      [⟨"a", false, false, false, false⟩, ⟨"b", false, false, false, false⟩]
      (by decide)).1⟩

/-- Claim C5 (confirmed; the Group class itself is modelled from the spec's
copy-at-creation snapshot): a group records the global `runnerOptions` in
force at its creation, and overwriting the module-level `runnerOptions`
afterwards leaves every already-created group — in particular its bail,
timeout and grep snapshot — unchanged. -/
theorem group_snapshot_immune (s : SlimState) (title : String) (o2 : IOptions) :
    (runDecl none s (.dgroup title [])).groups.getLast? = some ⟨title, [], s.runnerOptions, {}⟩
    ∧ (setRunnerOptions (runDecl none s (.dgroup title [])) o2).groups
        = (runDecl none s (.dgroup title [])).groups
    ∧ (setRunnerOptions (runDecl none s (.dgroup title [])) o2).groups.getLast?
        = some ⟨title, [], s.runnerOptions, {}⟩ := by
  have hg : (runDecl none s (.dgroup title [])).groups
      = s.groups ++ [⟨title, [], s.runnerOptions, {}⟩] := by
    simp [runDecl, runDeclList]
  refine ⟨?_, rfl, ?_⟩ <;>
    simp [setRunnerOptions, hg]

/-- Claim C7 (confirmed): `test.group(title, callback)` pushes one new
group — with its own, initially empty, hook slots — onto the group list and
runs the declaration callback synchronously (the model is the sequential
composition: the body's declarations are processed before `test.group`
returns), so every test and every hook setting declared in the callback is
attached to that group; afterwards no group is active. -/
theorem group_declaration (cb : Option Nat) (s : SlimState) (title : String)
    (body : List Decl) (hflat : ∀ d ∈ body, d.isGroup = false) :
    runDecl cb s (.dgroup title body) =
      { s with
          groups := s.groups ++ [⟨title, bodyTests body, s.runnerOptions, bodyHooks {} body⟩]
          activeGroup := none } := by
  have hpush : ({ s with
      groups := s.groups ++ [⟨title, [], s.runnerOptions, {}⟩]
      activeGroup := some s.groups.length } : SlimState).activeGroup = some s.groups.length := rfl
  have hbody := runDeclList_flat body
    { s with
        groups := s.groups ++ [⟨title, [], s.runnerOptions, {}⟩]
        activeGroup := some s.groups.length }
    s.groups.length hflat hpush
  simp only [runDecl, hbody]
  simp [modifyAt_append_length]

/-- Concrete instance of C7: a group callback declaring one test and one
before-each hook yields one new group titled "math" holding that test with
that hook slot set, and no active group afterwards. -/
theorem group_declaration_witness :
    (∀ d ∈ ([Decl.dtest ⟨"a", false, false, false, false⟩,
             Decl.dhook HookKind.beforeEach 9] : List Decl), d.isGroup = false) ∧
    runDecl none initSlimState
        (.dgroup "math"
          [Decl.dtest ⟨"a", false, false, false, false⟩,
           Decl.dhook HookKind.beforeEach 9]) =
      { initSlimState with
          groups := [⟨"math", [⟨"a", false, false, false, false⟩], initSlimState.runnerOptions,
                      { before := none, after := none, beforeEach := some 9, afterEach := none }⟩]
          activeGroup := none } :=
  ⟨by decide,
   (group_declaration none initSlimState "math"
      [Decl.dtest ⟨"a", false, false, false, false⟩, Decl.dhook HookKind.beforeEach 9]
      (by decide)).trans rfl⟩

/-- Claim C9 (confirmed): with the reporter's status list as constructed
(`['passed', 'failed', 'skipped', 'todo']`), a `test:end` event whose status
is not one of those makes `onTestEnd` return immediately: the state is
unchanged (no final-stats counter, no counters, no pushed test case) and
nothing is printed. -/
theorem onTestEnd_unknown_status (st : MinState) (ev : TestEndEvent)
    (_hst : st.testsStatuses = ["passed", "failed", "skipped", "todo"])
    (hev : ev.status ∉ st.testsStatuses) :
    onTestEnd st ev = (st, []) := by
  unfold onTestEnd
  rw [jsIndexOf_of_not_mem st.testsStatuses ev.status hev]
  simp

/-- Concrete instance of C9: a `test:end` event with status `pending`
leaves the freshly constructed reporter untouched and prints nothing. -/
theorem onTestEnd_unknown_status_witness :
    initMinState.testsStatuses = ["passed", "failed", "skipped", "todo"] ∧
    "pending" ∉ initMinState.testsStatuses ∧
    onTestEnd initMinState
      ⟨none, "pending", "t", 3, false, none⟩ = (initMinState, []) :=
  ⟨by decide, by decide,
   onTestEnd_unknown_status initMinState ⟨none, "pending", "t", 3, false, none⟩
     (by decide) (by decide)⟩

/-- Claim C10 (confirmed): the total time in the final summary is
`new Date().getDate() - this.start`, a difference of day-of-month values,
not elapsed wall-clock time; when the run starts and ends on the same
calendar day the reported time is the rendering of 0 milliseconds. -/
theorem onTestsEnd_time_is_date_difference (st : MinState) (d1 d2 : Int)
    (status : String) (errors : EndErrors)
    (hstart : st.start = some d1) (htotal : st.finalStats.total ≠ 0) :
    ROut.statsReport st.finalStats (d2 - d1) ∈ (onTestsEnd st d2 status errors).2
    ∧ (d2 = d1 → ROut.statsReport st.finalStats 0 ∈ (onTestsEnd st d2 status errors).2) := by
  constructor
  · unfold onTestsEnd
    rw [hstart]
    simp [htotal]
  · intro hday
    unfold onTestsEnd
    rw [hstart, hday]
    simp [htotal]

/-- Concrete instance of C10: a run whose start and end events both fall on
day 7 of the month reports a total time of 0 milliseconds, whatever time
actually elapsed. -/
theorem onTestsEnd_time_witness :
    ({ initMinState with start := some 7, finalStats := ⟨1, 1, 0, 0, 0, 0⟩ } : MinState).start = some 7 ∧
    ({ initMinState with start := some 7, finalStats := ⟨1, 1, 0, 0, 0, 0⟩ } : MinState).finalStats.total ≠ 0 ∧
    ROut.statsReport ⟨1, 1, 0, 0, 0, 0⟩ 0 ∈
      (onTestsEnd { initMinState with start := some 7, finalStats := ⟨1, 1, 0, 0, 0, 0⟩ }
        7 "passed" EndErrors.noErrors).2 :=
  ⟨rfl, by decide,
   (onTestsEnd_time_is_date_difference
      { initMinState with start := some 7, finalStats := ⟨1, 1, 0, 0, 0, 0⟩ }
      7 7 "passed" EndErrors.noErrors rfl (by decide)).2 rfl⟩

/-! ## Claim C3 (configure guard) -/

/-- Counterexample to C3 as stated: with no group declared, passing an
invalid pattern string as grep makes `test.configure` throw anyway — line
280 runs `new RegExp(options.grep)`, and the `RegExp` constructor throws a
`SyntaxError` for the pattern `(` in every conforming engine (here, the
pinned probe instance of that constructor). -/
theorem configure_invalid_grep_throws :
    initSlimState.groups = []
    ∧ configure probeRegExpCtor { grep := some (GrepVal.str "(") } initSlimState
        = (initSlimState,
           some "SyntaxError: Invalid regular expression: Unterminated group") :=
  ⟨rfl, rfl⟩

/-- Claim C3 (corrected): `test.configure(options)` throws as soon as any
group exists, whatever the engine — the check precedes every assignment, so
the error case leaves the configuration state exactly as it was — and when
no group exists the (typed) call does not throw unless a truthy grep string
is supplied that the `RegExp` constructor rejects; in that case exactly the
constructor's error is thrown. -/
theorem configure_guard (newRegExp : String → Except String JSRegExp)
    (o : IConfigureOptions) (s : SlimState) :
    (s.groups ≠ [] →
      configure newRegExp o s
        = (s, some "test.configure must be called before creating any tests"))
    ∧ (s.groups = [] →
        (∀ gs, o.grep = some (GrepVal.str gs) → gs = "" ∨ ∃ r, newRegExp gs = .ok r) →
        (configure newRegExp o s).2 = none)
    ∧ (s.groups = [] →
        ∀ gs e, o.grep = some (GrepVal.str gs) → gs ≠ "" → newRegExp gs = .error e →
        (configure newRegExp o s).2 = some e) := by
  refine ⟨?_, ?_, ?_⟩
  · intro h
    simp [configure, h]
  · intro h hcomp
    cases hgrep : o.grep with
    | none => simp [configure, h, hgrep]
    | some g =>
      cases g with
      | re r => simp [configure, h, hgrep, GrepVal.truthy, normalizeGrep]
      | str gs =>
        by_cases hgs : gs = ""
        · simp [configure, h, hgrep, hgs, GrepVal.truthy]
        · obtain ⟨r, hr⟩ := (hcomp gs hgrep).resolve_left hgs
          simp [configure, h, hgrep, GrepVal.truthy, hgs, normalizeGrep, hr]
  · intro h gs e hgrep hgs her
    simp [configure, h, hgrep, GrepVal.truthy, hgs, normalizeGrep, her]

/-- Concrete instance of the amended C3: configuring after a single root
group exists throws the guard error and changes nothing, while configuring
the fresh module with no grep option does not throw. -/
theorem configure_guard_witness :
    (({ initSlimState with groups := [⟨"root", [], initSlimState.runnerOptions, {}⟩] } : SlimState).groups ≠ []
      ∧ configure probeRegExpCtor {} { initSlimState with groups := [⟨"root", [], initSlimState.runnerOptions, {}⟩] }
          = ({ initSlimState with groups := [⟨"root", [], initSlimState.runnerOptions, {}⟩] },
             some "test.configure must be called before creating any tests"))
    ∧ (initSlimState.groups = []
       ∧ (configure probeRegExpCtor {} initSlimState).2 = none) :=
  ⟨⟨by decide,
    (configure_guard probeRegExpCtor {} { initSlimState with groups := [⟨"root", [], initSlimState.runnerOptions, {}⟩] }).1
      (by decide)⟩,
   ⟨rfl,
    (configure_guard probeRegExpCtor {} initSlimState).2.1 rfl
      (fun gs hgs => Option.noConfusion hgs)⟩⟩

/-! ## Claim C6 (grep normalization) -/

/-- Counterexample to C6 as stated: `configure` receiving the raw string
`""` does not compile it to a `RegExp` — the JS guard `if (options.grep)`
is false for an empty string, so the configuration is returned unchanged
(the engine is never consulted) and the stored grep remains `none` instead
of the compiled empty pattern. -/
theorem configure_empty_grep_not_compiled :
    configure probeRegExpCtor { grep := some (GrepVal.str "") } initSlimState
      = (initSlimState, none)
    ∧ initSlimState.runnerOptions.grep = none
    ∧ (none : Option JSRegExp) ≠ some (JSRegExp.mk "") := by
  refine ⟨rfl, rfl, ?_⟩
  decide

/-- Claim C6 (corrected): grep normalization, amended for the empty-string
and invalid-pattern cases.  A truthy (nonempty) raw string is handed to
`new RegExp`: when compilation succeeds the compiled pattern is stored,
and when the constructor throws, its error propagates out of `configure`
and no pattern is stored; a pre-built `RegExp` object is stored unchanged;
and when grep was never set the execution-time filter matches every title
(for any behaviour of the regex engine). -/
theorem configure_grep_normalization (newRegExp : String → Except String JSRegExp)
    (st : SlimState) (r rp : JSRegExp) (sp : String)
    (rt : JSRegExp → String → Bool) (title : String)
    (hg : st.groups = []) (hsp : sp ≠ "") (hok : newRegExp sp = .ok rp) :
    (configure newRegExp { grep := some (GrepVal.re r) } st
       = ({ st with runnerOptions := { st.runnerOptions with grep := some r } }, none))
    ∧ (configure newRegExp { grep := some (GrepVal.str sp) } st
       = ({ st with runnerOptions := { st.runnerOptions with grep := some rp } }, none))
    ∧ (∀ sq e, sq ≠ "" → newRegExp sq = .error e →
        (configure newRegExp { grep := some (GrepVal.str sq) } st).2 = some e
        ∧ (configure newRegExp { grep := some (GrepVal.str sq) } st).1.runnerOptions.grep
            = st.runnerOptions.grep)
    ∧ grepFilterMatches rt none title = true := by
  refine ⟨?_, ?_, ?_, rfl⟩
  · simp [configure, hg, GrepVal.truthy, normalizeGrep]
  · simp [configure, hg, GrepVal.truthy, hsp, normalizeGrep, hok]
  · intro sq e hq her
    constructor <;>
      simp [configure, hg, GrepVal.truthy, hq, normalizeGrep, her]

/-- Concrete instance of the amended C6: a pre-built pattern object is kept
as-is, the raw string "adds" is compiled and stored, the invalid pattern
"(" makes the constructor's error escape with nothing stored, and the
unset filter matches an arbitrary title. -/
theorem configure_grep_normalization_witness :
    initSlimState.groups = [] ∧ "adds" ≠ ""
    ∧ probeRegExpCtor "adds" = .ok (JSRegExp.mk "adds")
    ∧ (configure probeRegExpCtor { grep := some (GrepVal.str "adds") } initSlimState
        = ({ initSlimState with runnerOptions := { initSlimState.runnerOptions with grep := some (JSRegExp.mk "adds") } }, none))
    ∧ (configure probeRegExpCtor { grep := some (GrepVal.str "(") } initSlimState).2
        = some "SyntaxError: Invalid regular expression: Unterminated group"
    ∧ grepFilterMatches (fun _ _ => false) none "adds two numbers" = true :=
  ⟨rfl, by decide, rfl,
   (configure_grep_normalization probeRegExpCtor initSlimState ⟨"sub"⟩ ⟨"adds"⟩ "adds"
      (fun _ _ => false) "adds two numbers" rfl (by decide) rfl).2.1,
   ((configure_grep_normalization probeRegExpCtor initSlimState ⟨"sub"⟩ ⟨"adds"⟩ "adds"
      (fun _ _ => false) "adds two numbers" rfl (by decide) rfl).2.2.1
      "(" "SyntaxError: Invalid regular expression: Unterminated group"
      (by decide) rfl).1,
   (configure_grep_normalization probeRegExpCtor initSlimState ⟨"sub"⟩ ⟨"adds"⟩ "adds"
      (fun _ _ => false) "adds two numbers" rfl (by decide) rfl).2.2.2⟩

/-! ## Claims C1, C2 and C8 (the run function) -/

/-- Counterexample to C1 as stated: an invocation of `run(true)` in which
the runner recorded no failures and `runner.run()` threw nothing still
exits with code 1, because a test was declared before the loader found a
suite file and the early configuration-error exit (line 137) fires. -/
theorem run_exit_without_failure :
    (runModel
       { initSlimState with groups := [⟨"root", [⟨"t1", false, false, false, false⟩], initSlimState.runnerOptions, {}⟩] }
       ["test/a.js"] (.completed false) true).2 = some 1
    ∧ RunnerOutcome.errFlag (.completed false) = false
    ∧ RunnerOutcome.isThrow (.completed false) = false := by
  refine ⟨?_, rfl, rfl⟩
  rfl

/-- Claim C1 (corrected): for every invocation of `run()` with
`exitProcess` left true that does not take the early configuration-error
exit (that exit requires loader files and declared groups simultaneously),
the process exits with code 0 iff the runner recorded no failures and no
hard exception was caught during `runner.run()`; in every other such case
it exits with code 1. -/
theorem run_exit_code (s : SlimState) (files : List String)
    (oc : RunnerOutcome) (h : files = [] ∨ s.groups = []) :
    (runModel s files oc true).2 = some (if oc.errFlag || oc.isThrow then 1 else 0)
    ∧ ((runModel s files oc true).2 = some 0 ↔ (oc.errFlag = false ∧ oc.isThrow = false)) := by
  have hc : ¬(files ≠ [] ∧ s.groups ≠ []) := by
    rcases h with h | h <;> simp [h]
  constructor
  · simp [runModel, hc]
  · simp only [runModel, hc, if_false, reduceIte]
    cases oc with
    | completed e => cases e <;> simp [RunnerOutcome.errFlag, RunnerOutcome.isThrow]
    | threw e => cases e <;> simp [RunnerOutcome.errFlag, RunnerOutcome.isThrow]

/-- Concrete instance of the amended C1: with no loader files, a run whose
runner completed without failures exits 0. -/
theorem run_exit_code_witness :
    (([] : List String) = [] ∨ initSlimState.groups = []) ∧
    (runModel initSlimState [] (.completed false) true).2 = some 0 :=
  ⟨Or.inl rfl,
   by
    have h := (run_exit_code initSlimState [] (.completed false) (Or.inl rfl)).1
    simpa using h⟩

/-- Claim C2 (confirmed): a rejection escaping `runner.run()` is caught by
the surrounding try/catch (the model's trace always continues past
`runnerRun`), every configured after hook still runs afterwards, and the
run is reported as failed: the process exits 1 when `exitProcess` is
true. -/
theorem run_hard_exception_contained (s : SlimState) (files : List String)
    (he : Bool) (h : files = [] ∨ s.groups = []) :
    (∀ i ∈ s.afterHooks,
        RunEvent.afterHook i ∈ (runModel s files (.threw he) true).1)
    ∧ (runModel s files (.threw he) true).2 = some 1 := by
  have hc : ¬(files ≠ [] ∧ s.groups ≠ []) := by
    rcases h with h | h <;> simp [h]
  constructor
  · intro i hi
    simp [runModel, hc, List.mem_append, List.mem_map, RunnerOutcome.errFlag,
      RunnerOutcome.isThrow]
    tauto
  · simp [runModel, hc, RunnerOutcome.errFlag, RunnerOutcome.isThrow]

/-- Concrete instance of C2: with one configured after hook, a run whose
runner threw still executes that hook and exits 1. -/
theorem run_hard_exception_witness :
    (([] : List String) = [] ∨ ({ initSlimState with afterHooks := [4] } : SlimState).groups = []) ∧
    4 ∈ ({ initSlimState with afterHooks := [4] } : SlimState).afterHooks ∧
    RunEvent.afterHook 4 ∈
      (runModel { initSlimState with afterHooks := [4] } [] (.threw false) true).1 ∧
    (runModel { initSlimState with afterHooks := [4] } [] (.threw false) true).2 = some 1 :=
  ⟨Or.inl rfl, by decide,
   (run_hard_exception_contained { initSlimState with afterHooks := [4] }
      [] false (Or.inl rfl)).1 4 (by decide),
   (run_hard_exception_contained { initSlimState with afterHooks := [4] }
      [] false (Or.inl rfl)).2⟩

/-- Claim C8 (confirmed): when tests were already declared and the loader
found at least one file, `run()` logs the configuration error and exits
with code 1 before requiring any loaded file and before `runner.run()` is
called — whatever `exitProcess` was. -/
theorem run_declared_tests_guard (s : SlimState) (files : List String)
    (oc : RunnerOutcome) (ep : Bool)
    (h1 : files ≠ []) (h2 : s.groups ≠ []) :
    (runModel s files oc ep).2 = some 1
    ∧ RunEvent.configError ∈ (runModel s files oc ep).1
    ∧ (∀ f, RunEvent.requireFile f ∉ (runModel s files oc ep).1)
    ∧ RunEvent.runnerRun ∉ (runModel s files oc ep).1 := by
  refine ⟨?_, ?_, ?_, ?_⟩
  · simp [runModel, h1, h2]
  · simp [runModel, h1, h2]
  · intro f
    simp [runModel, h1, h2]
  · simp [runModel, h1, h2]

/-- Concrete instance of C8: a declared root group plus one loader file
make the run exit 1 with neither a require of the file nor a runner run. -/
theorem run_declared_tests_guard_witness :
    (["test/a.js"] ≠ ([] : List String)) ∧
    (({ initSlimState with groups := [⟨"root", [⟨"t1", false, false, false, false⟩], initSlimState.runnerOptions, {}⟩] } : SlimState).groups ≠ []) ∧
    (runModel
       { initSlimState with groups := [⟨"root", [⟨"t1", false, false, false, false⟩], initSlimState.runnerOptions, {}⟩] }
       ["test/a.js"] (.completed false) false).2 = some 1 ∧
    RunEvent.runnerRun ∉
      (runModel
        { initSlimState with groups := [⟨"root", [⟨"t1", false, false, false, false⟩], initSlimState.runnerOptions, {}⟩] }
        ["test/a.js"] (.completed false) false).1 :=
  ⟨by decide, by decide,
   (run_declared_tests_guard _ ["test/a.js"] (.completed false) false
      (by decide) (by decide)).1,
   (run_declared_tests_guard _ ["test/a.js"] (.completed false) false
      (by decide) (by decide)).2.2.2⟩

end Japa
